import Mathlib

/-!
Shallow embedding of the Synthor synthesizer core (src/main.py):
waveform generation, LFO modulation, IIR filtering, oscillator
composition, voice mixing, and polyphony management.

Samples are modelled as exact rationals (floating-point values are
rationals).  External library functions (numpy / scipy / pygame) are not
repository code; they are modelled as parameters bundled in `NumpyEnv`,
so every theorem quantifies over all possible behaviours of those
libraries.  Trigonometric library calls in the source always receive an
argument of the form `2·π·x` with `x` rational, so the corresponding
environment fields take that rational phase `x` directly (the factor
`2·π` is recorded in the field's documentation).
-/

namespace Synthor

/-- Constant `SAMPLE_RATE = 44100` from src/main.py. -/
def SAMPLE_RATE : ℚ := 44100

/-- Constant `NUM_VOICES = 8` from src/main.py. -/
def NUM_VOICES : ℕ := 8

/-- Constant `MAX_VOLUME = 32767` from src/main.py. -/
def MAX_VOLUME : ℚ := 32767

/-- The `Waveform` enum of src/main.py. -/
inductive Waveform where
  | SINE
  | SAWTOOTH
  | TRIANGLE
  | SQUARE
  | PULSE
  | NOISE_WHITE
  | NOISE_PINK
  | NOISE_BROWN
  deriving DecidableEq, Repr

/-- Filter types accepted by `scipy.signal.butter` as used in src/main.py
(`lowpass` is the default set in `Filter.__init__`). -/
inductive FilterType where
  | lowpass
  | highpass
  | bandpass
  | notch
  deriving DecidableEq, Repr

/-- A mono signal buffer: ordered samples at the fixed sample rate. -/
abbrev Signal := List ℚ

/-- Python `int(SAMPLE_RATE * duration)`: truncation toward zero of the
sample count (for positive products this is the floor; for negative
products both truncation and this model make `np.linspace` receive a
non-positive count, i.e. zero samples). -/
def numSamples (duration : ℚ) : ℕ := (⌊SAMPLE_RATE * duration⌋).toNat

/-- Model of `np.linspace(0, duration, n, False)`: `n` evenly spaced points from 0
with step `duration / n`, endpoint excluded. -/
def linspace (duration : ℚ) (n : ℕ) : List ℚ :=
  (List.range n).map (fun i : ℕ => duration * (i : ℚ) / (n : ℚ))

/-- Model of the external numeric libraries used by src/main.py.  Each
field stands for one library function; theorems hold for every
instantiation.  The three periodic generators receive the source's
argument divided by `2·π` (the source always calls them at `2·π·x`). -/
structure NumpyEnv where
  /-- Models `np.sin (2·π·x)`. -/
  np_sin2pi : ℚ → ℚ
  /-- Models `scipy.signal.sawtooth (2·π·x, width)`: first argument is the
  width, second the phase `x`. -/
  sp_sawtooth2pi : ℚ → ℚ → ℚ
  /-- Models `scipy.signal.square (2·π·x, duty)`: first argument is the duty
  cycle, second the phase `x`. -/
  sp_square2pi : ℚ → ℚ → ℚ
  /-- Models `np.random.normal(0, 1, ·)`: the stream of white-noise samples the
  random generator would produce on this call, indexed by position. -/
  np_random_normal : ℕ → ℚ
  /-- Models `scipy.signal.butter(order, normal_cutoff, btype, analog=False)`:
  returns the numerator/denominator coefficient lists `(b, a)`. -/
  butter : ℕ → ℚ → FilterType → List ℚ × List ℚ

/-- Dot product of a coefficient list against a (most-recent-first)
history list; missing history entries count as zero, matching
`scipy.signal.lfilter`'s zero initial conditions. -/
def dotQ (cs vs : List ℚ) : ℚ := (List.zipWith (· * ·) cs vs).sum

/-- Worker for `lfilter`: consumes the input left to right keeping the
reversed input history `xsRev` and reversed output history `ysRev`, and
emits one output per input via the direct-form difference equation
`a₀·y[n] = Σ bᵢ·x[n−i] − Σ_{j≥1} aⱼ·y[n−j]`. -/
def lfilterGo (b a : List ℚ) : List ℚ → List ℚ → List ℚ → List ℚ
  | _, ysRev, [] => ysRev.reverse
  | xsRev, ysRev, x :: rest =>
    let xs := x :: xsRev
    let y := (dotQ b xs - dotQ a.tail ysRev) / a.headD 1
    lfilterGo b a xs (y :: ysRev) rest

/-- Model of `scipy.signal.lfilter(b, a, x)` with zero initial conditions. -/
def lfilter (b a : List ℚ) (x : List ℚ) : List ℚ := lfilterGo b a [] [] x

/-- The `Filter` class of src/main.py: defaults `type='lowpass'`,
`cutoff_frequency=1000`, `order=2`. -/
structure Filter where
  type : FilterType := FilterType.lowpass
  cutoff_frequency : ℚ := 1000
  order : ℕ := 2

/-- The normalized cutoff computed inside `Filter.butter_filter`:
`nyq = 0.5 * fs; normal_cutoff = cutoff / nyq`. -/
def Filter.normalCutoff (cutoff fs : ℚ) : ℚ := cutoff / (1 / 2 * fs)

/-- Method `Filter.butter_filter(cutoff, fs, order, filter_type)`: normalizes
the cutoff against the Nyquist frequency and hands it to
`scipy.signal.butter`, returning `(b, a)`.  No validation or clamping is
performed on `normal_cutoff`. -/
def Filter.butter_filter (env : NumpyEnv) (_f : Filter) (cutoff fs : ℚ)
    (order : ℕ) (filter_type : FilterType) : List ℚ × List ℚ :=
  env.butter order (Filter.normalCutoff cutoff fs) filter_type

/-- Method `Filter.apply_filter(waveform)`: designs coefficients from the
filter's own fields and runs `lfilter`. -/
def Filter.apply_filter (env : NumpyEnv) (f : Filter) (waveform : Signal) : Signal :=
  let ba := f.butter_filter env f.cutoff_frequency SAMPLE_RATE f.order f.type
  lfilter ba.1 ba.2 waveform

/-- The `LFO` class of src/main.py: defaults `waveform=SINE`, `rate=1`. -/
structure LFO where
  waveform : Waveform := Waveform.SINE
  rate : ℚ := 1

/-- Method `LFO.generate_lfo_wave(duration, rate)`: a sine envelope when the
LFO waveform is `SINE`; otherwise `np.ones_like(t)` (no modulation). -/
def LFO.generate_lfo_wave (env : NumpyEnv) (lfo : LFO) (duration rate : ℚ) : Signal :=
  let t := linspace duration (numSamples duration)
  if lfo.waveform = Waveform.SINE then
    t.map (fun x => env.np_sin2pi (rate * x))
  else
    t.map (fun _ => 1)

/-- Method `LFO.apply_lfo(waveform, duration)`: elementwise product of the
input with the LFO envelope (numpy `*` on equal-length arrays). -/
def LFO.apply_lfo (env : NumpyEnv) (lfo : LFO) (waveform : Signal) (duration : ℚ) : Signal :=
  List.zipWith (· * ·) waveform (lfo.generate_lfo_wave env duration lfo.rate)

/-- The `Oscillator` class of src/main.py: defaults `active=True`, fresh
`Filter()` and `LFO()`. -/
structure Oscillator where
  waveform : Waveform := Waveform.SINE
  active : Bool := true
  filter : Filter := {}
  lfo : LFO := {}

/-- The per-kind waveform table of `Oscillator.generate_wave`: the value
of the local `wave` array before LFO and filter are applied.  `NOISE_PINK`
and `NOISE_BROWN` fall into the `else` branch (silent placeholder). -/
def rawWave (env : NumpyEnv) (kind : Waveform) (frequency duration : ℚ) : Signal :=
  let n := numSamples duration
  let t := linspace duration n
  match kind with
  | Waveform.SINE => t.map (fun x => env.np_sin2pi (frequency * x))
  | Waveform.SAWTOOTH => t.map (fun x => env.sp_sawtooth2pi 1 (frequency * x))
  | Waveform.TRIANGLE => t.map (fun x => 2 * |env.sp_sawtooth2pi (1 / 2) (frequency * x)| - 1)
  | Waveform.SQUARE => t.map (fun x => env.sp_square2pi (1 / 2) (frequency * x))
  | Waveform.PULSE => t.map (fun x => env.sp_square2pi (1 / 10) (frequency * x))
  | Waveform.NOISE_WHITE => (List.range n).map env.np_random_normal
  | _ => List.replicate n 0

/-- Method `Oscillator.generate_wave(frequency, duration)`: returns zeros
immediately when inactive; otherwise generates the raw waveform, applies
the LFO, then applies the filter. -/
def Oscillator.generate_wave (env : NumpyEnv) (osc : Oscillator)
    (frequency duration : ℚ) : Signal :=
  if !osc.active then
    List.replicate (numSamples duration) 0
  else
    let wave := rawWave env osc.waveform frequency duration
    let wave := osc.lfo.apply_lfo env wave duration
    osc.filter.apply_filter env wave

/-- A note identity: the keyboard character delivered by the input
event (`event.char.lower()`). -/
abbrev Key := String

/-- The `key_frequencies` table of src/main.py, exact decimal values. -/
def key_frequencies (k : Key) : Option ℚ :=
  ([("q", 1046.50), ("w", 1108.73), ("e", 1174.66), ("r", 1244.51),
    ("t", 1318.51), ("y", 1396.91), ("u", 1479.98), ("i", 1567.98),
    ("o", 1661.22), ("p", 1760.00),
    ("a", 880.00), ("s", 932.33), ("d", 987.77), ("f", 1046.50),
    ("g", 1108.73), ("h", 1174.66), ("j", 1244.51), ("k", 1318.51),
    ("l", 1396.91),
    ("z", 440.00), ("x", 466.16), ("c", 493.88), ("v", 523.25),
    ("b", 554.37), ("n", 587.33), ("m", 622.25)] : List (Key × ℚ)).lookup k

/-- State of the `SynthPolyphony` class: `channels i = some k` means
pygame channel `i` is busy playing the note triggered by key `k`
(`get_busy()` true); `none` means the channel is free.  `active_notes`
is the dictionary mapping a key to the channel chosen for it. -/
structure SynthPolyphony where
  channels : Fin NUM_VOICES → Option Key
  active_notes : Key → Option (Fin NUM_VOICES)

/-- Model of `next((ch for ch in self.channels if not ch.get_busy()), self.channels[0])`:
the first non-busy channel in index order, defaulting to channel 0 when
all are busy. -/
def findFreeChannel (s : SynthPolyphony) : Fin NUM_VOICES :=
  match (List.finRange NUM_VOICES).find? (fun i => (s.channels i).isNone) with
  | some i => i
  | none => ⟨0, by decide⟩

/-- Method `SynthPolyphony.play_sound(sound_array, key)`: picks a channel via
the free-channel scan, plays the new sound on it (`Channel.play` stops
whatever that channel was playing), and records `key → channel` in
`active_notes`.  No entry is removed from `active_notes`. -/
def play_sound (s : SynthPolyphony) (key : Key) : SynthPolyphony :=
  let available_channel := findFreeChannel s
  { channels := fun i => if i = available_channel then some key else s.channels i
    active_notes := fun k => if k = key then some available_channel else s.active_notes k }

/-- Method `SynthPolyphony.stop_sound(key)`: if `key` is in `active_notes`,
stop its channel and delete the entry; otherwise do nothing. -/
def stop_sound (s : SynthPolyphony) (key : Key) : SynthPolyphony :=
  match s.active_notes key with
  | none => s
  | some ch =>
    { channels := fun i => if i = ch then none else s.channels i
      active_notes := fun k => if k = key then none else s.active_notes k }

/-- Handler `SynthesizerApp.on_key_press` restricted to its effect on the
polyphony state: trigger only when the key has no `active_notes` entry
and is a known key. -/
def on_key_press (s : SynthPolyphony) (key : Key) : SynthPolyphony :=
  if (s.active_notes key).isNone && (key_frequencies key).isSome then
    play_sound s key
  else
    s

/-- Handler `SynthesizerApp.on_key_release` restricted to its effect on the
polyphony state. -/
def on_key_release (s : SynthPolyphony) (key : Key) : SynthPolyphony :=
  if (s.active_notes key).isSome then stop_sound s key else s

/-- Model of `np.sum(waves, axis=0)`: elementwise sum of a list of equal-length
arrays (index `i` of the result sums entry `i` of every array). -/
def np_sum_axis0 (waves : List Signal) : Signal :=
  (List.range (waves.headD []).length).map
    (fun i => (waves.map (fun w => w.getD i 0)).sum)

/-- Method `SynthesizerApp.generate_sound(key)`: generates one wave per
oscillator at the key's frequency for 1 second, sums them elementwise
and divides by the oscillator count. -/
def generate_sound (env : NumpyEnv) (oscillators : List Oscillator) (key : Key) : Signal :=
  match key_frequencies key with
  | some frequency =>
      let duration : ℚ := 1
      let waves := oscillators.map (fun osc => osc.generate_wave env frequency duration)
      (np_sum_axis0 waves).map (fun x => x / (oscillators.length : ℚ))
  | none => List.replicate (numSamples 1) 0

/-- The spec's Waveform Generator stage on its own (§4.1/§4.4): the raw
per-kind waveform, gated by `active` (an inactive oscillator's waveform
stage yields silence of the same length). -/
def waveformStage (env : NumpyEnv) (osc : Oscillator) (frequency duration : ℚ) : Signal :=
  if osc.active then rawWave env osc.waveform frequency duration
  else List.replicate (numSamples duration) 0

/-- The spec's fixed three-stage pipeline (§4.4): Waveform Generator,
then Modulator, then Filter Stage, in that order, with only the
waveform stage gated by `active`. -/
def pipeline (env : NumpyEnv) (osc : Oscillator) (frequency duration : ℚ) : Signal :=
  osc.filter.apply_filter env (osc.lfo.apply_lfo env (waveformStage env osc frequency duration) duration)

/-- A concrete instantiation of the external libraries, used to
evaluate the model at concrete inputs. -/
def trivEnv : NumpyEnv where
  np_sin2pi := fun _ => 0
  sp_sawtooth2pi := fun _ _ => 0
  sp_square2pi := fun _ _ => 0
  np_random_normal := fun _ => 0
  butter := fun _ _ _ => ([1], [1])

/-- A concrete polyphony state: key `"z"` playing on channel 0. -/
def s1 : SynthPolyphony where
  channels := fun i => if i = ⟨0, by decide⟩ then some "z" else none
  active_notes := fun k => if k = "z" then some ⟨0, by decide⟩ else none

/-- A concrete polyphony state: `"z"` on channel 0 and `"x"` on
channel 1. -/
def s2 : SynthPolyphony where
  channels := fun i =>
    if i = ⟨0, by decide⟩ then some "z" else if i = ⟨1, by decide⟩ then some "x" else none
  active_notes := fun k =>
    if k = "z" then some ⟨0, by decide⟩ else if k = "x" then some ⟨1, by decide⟩ else none

/-- A concrete polyphony state in which all `NUM_VOICES = 8` channels
are busy with eight distinct notes `q w e r t y u i` (channel index in
that order), and the table records each of them. -/
def s8 : SynthPolyphony where
  channels := fun i =>
    some (["q", "w", "e", "r", "t", "y", "u", "i"].getD i "q")
  active_notes := fun k =>
    if k = "q" then some ⟨0, by decide⟩
    else if k = "w" then some ⟨1, by decide⟩
    else if k = "e" then some ⟨2, by decide⟩
    else if k = "r" then some ⟨3, by decide⟩
    else if k = "t" then some ⟨4, by decide⟩
    else if k = "y" then some ⟨5, by decide⟩
    else if k = "u" then some ⟨6, by decide⟩
    else if k = "i" then some ⟨7, by decide⟩
    else none

/-! ## Helper lemmas -/

/-- Function `linspace` produces exactly the requested number of points. -/
theorem linspace_length (d : ℚ) (n : ℕ) : (linspace d n).length = n := by
  rw [linspace, List.length_map, List.length_range]

/-- The filter worker emits one output per input sample. -/
theorem lfilterGo_length (b a : List ℚ) (input : List ℚ) :
    ∀ xsRev ysRev : List ℚ,
      (lfilterGo b a xsRev ysRev input).length = ysRev.length + input.length := by
  induction input with
  | nil => intro xsRev ysRev; simp [lfilterGo]
  | cons x rest ih =>
      intro xsRev ysRev
      simp only [lfilterGo]
      rw [ih]
      simp
      omega

/-- Function `lfilter` preserves the length of its input. -/
theorem lfilter_length (b a x : List ℚ) : (lfilter b a x).length = x.length := by
  simp [lfilter, lfilterGo_length]

/-- A dot product against an all-zero history vanishes. -/
theorem dotQ_eq_zero (cs : List ℚ) :
    ∀ vs : List ℚ, (∀ v ∈ vs, v = 0) → dotQ cs vs = 0 := by
  induction cs with
  | nil => intro vs _; simp [dotQ]
  | cons c cs ih =>
      intro vs hv
      cases vs with
      | nil => simp [dotQ]
      | cons v vs =>
          have hv0 : v = 0 := hv v (by simp)
          have hrest : dotQ cs vs = 0 := ih vs (fun w hw => hv w (by simp [hw]))
          simp [dotQ, List.zipWith_cons_cons, hv0]
          simpa [dotQ] using hrest

/-- The filter worker maps an all-zero input to all-zero outputs. -/
theorem lfilterGo_zeros (b a : List ℚ) (n : ℕ) :
    ∀ xsRev ysRev : List ℚ, (∀ v ∈ xsRev, v = 0) → (∀ v ∈ ysRev, v = 0) →
      lfilterGo b a xsRev ysRev (List.replicate n 0) =
        ysRev.reverse ++ List.replicate n 0 := by
  induction n with
  | zero => intro xsRev ysRev _ _; simp [lfilterGo]
  | succ m ih =>
      intro xsRev ysRev hx hy
      simp only [List.replicate_succ, lfilterGo]
      have hx0 : ∀ v ∈ (0 : ℚ) :: xsRev, v = 0 := by
        intro v hv
        rcases List.mem_cons.mp hv with h | h
        · exact h
        · exact hx v h
      have hy0 : ∀ v ∈ (0 : ℚ) :: ysRev, v = 0 := by
        intro v hv
        rcases List.mem_cons.mp hv with h | h
        · exact h
        · exact hy v h
      have hdb : dotQ b ((0 : ℚ) :: xsRev) = 0 := dotQ_eq_zero b _ hx0
      have hda : dotQ a.tail ysRev = 0 := dotQ_eq_zero a.tail ysRev hy
      rw [hdb, hda]
      have h0 : ((0 : ℚ) - 0) / a.headD 1 = 0 := by simp
      rw [h0, ih ((0 : ℚ) :: xsRev) ((0 : ℚ) :: ysRev) hx0 hy0]
      simp [List.replicate_succ]

/-- Function `lfilter` maps silence to silence, whatever the coefficients. -/
theorem lfilter_zeros (b a : List ℚ) (n : ℕ) :
    lfilter b a (List.replicate n 0) = List.replicate n 0 := by
  simpa using lfilterGo_zeros b a n [] [] (by simp) (by simp)

/-- Elementwise product with an all-zero left factor is all zero. -/
theorem zipWith_mul_replicate_zero (n : ℕ) :
    ∀ ys : List ℚ,
      List.zipWith (· * ·) (List.replicate n 0) ys =
        List.replicate (min n ys.length) 0 := by
  induction n with
  | zero => intro ys; simp
  | succ m ih =>
      intro ys
      cases ys with
      | nil => simp
      | cons y ys =>
          simp [List.replicate_succ, ih, Nat.succ_min_succ]

/-- Elementwise product with an all-one right factor of sufficient
length is the identity. -/
theorem zipWith_mul_ones (xs : List ℚ) :
    ∀ ys : List ℚ, (∀ y ∈ ys, y = 1) → xs.length ≤ ys.length →
      List.zipWith (· * ·) xs ys = xs := by
  induction xs with
  | nil => intro ys _ _; simp
  | cons x xs ih =>
      intro ys hy hlen
      cases ys with
      | nil => simp at hlen
      | cons y ys =>
          have hy1 : y = 1 := hy y (by simp)
          have : List.zipWith (· * ·) xs ys = xs :=
            ih ys (fun w hw => hy w (by simp [hw])) (by simpa using hlen)
          simp [hy1, this]

/-- The LFO envelope always has `numSamples duration` samples. -/
theorem generate_lfo_wave_length (env : NumpyEnv) (lfo : LFO) (d r : ℚ) :
    (lfo.generate_lfo_wave env d r).length = numSamples d := by
  unfold LFO.generate_lfo_wave
  split <;> rw [List.length_map, linspace_length]

/-- For a non-sine LFO waveform the envelope is constant 1. -/
theorem generate_lfo_wave_of_ne_sine (env : NumpyEnv) (lfo : LFO) (d r : ℚ)
    (hw : lfo.waveform ≠ Waveform.SINE) :
    lfo.generate_lfo_wave env d r = List.replicate (numSamples d) 1 := by
  unfold LFO.generate_lfo_wave
  rw [if_neg hw, List.map_const', linspace_length]

/-- Applying the LFO yields `min` of the input and envelope lengths. -/
theorem apply_lfo_length (env : NumpyEnv) (lfo : LFO) (w : Signal) (d : ℚ) :
    (lfo.apply_lfo env w d).length = min w.length (numSamples d) := by
  simp [LFO.apply_lfo, generate_lfo_wave_length]

/-- Applying the LFO to silence of envelope length yields silence. -/
theorem apply_lfo_zeros (env : NumpyEnv) (lfo : LFO) (d : ℚ) :
    lfo.apply_lfo env (List.replicate (numSamples d) 0) d =
      List.replicate (numSamples d) 0 := by
  unfold LFO.apply_lfo
  rw [zipWith_mul_replicate_zero]
  simp [generate_lfo_wave_length]

/-- The filter stage preserves signal length. -/
theorem apply_filter_length (env : NumpyEnv) (f : Filter) (w : Signal) :
    (f.apply_filter env w).length = w.length := by
  simp [Filter.apply_filter, lfilter_length]

/-- The filter stage maps silence to silence. -/
theorem apply_filter_zeros (env : NumpyEnv) (f : Filter) (n : ℕ) :
    f.apply_filter env (List.replicate n 0) = List.replicate n 0 := by
  simp [Filter.apply_filter, lfilter_zeros]

/-- The raw per-kind waveform always has `numSamples duration` samples. -/
theorem rawWave_length (env : NumpyEnv) (kind : Waveform) (f d : ℚ) :
    (rawWave env kind f d).length = numSamples d := by
  cases kind <;>
    simp only [rawWave, List.length_map, List.length_replicate, List.length_range,
      linspace_length]

/-- Function `generate_wave` always produces `numSamples duration` samples. -/
theorem generate_wave_length (env : NumpyEnv) (osc : Oscillator) (f d : ℚ) :
    (osc.generate_wave env f d).length = numSamples d := by
  unfold Oscillator.generate_wave
  split
  · simp
  · simp [apply_filter_length, apply_lfo_length, rawWave_length]

/-- Indexing a `range`-mapped list evaluates the generating function. -/
theorem getD_map_range (n : ℕ) (g : ℕ → ℚ) (i : ℕ) (h : i < n) :
    ((List.range n).map g).getD i 0 = g i := by
  simp [List.getD_eq_getElem?_getD, List.getElem?_map, List.getElem?_range, h]

/-! ## Claim theorems -/

/-- Claim C2, counterexample: the claim "the Signal has exactly
`round(duration * 44100)` samples" is false at frequency 440 and the
positive duration 11/88200 s: the code's `int(44100 * d)` truncation
yields 5 samples while `round(44100 * d) = round(5.5) = 6`. -/
theorem C2_length_counterexample :
    (0 : ℚ) < 440 ∧ (0 : ℚ) < 11 / 88200 ∧
    (Oscillator.generate_wave trivEnv {} 440 (11 / 88200)).length = 5 ∧
    round ((11 / 88200 : ℚ) * 44100) = 6 := by
  refine ⟨by norm_num, by norm_num, ?_, by norm_num [round_eq]⟩
  rw [generate_wave_length]
  show (⌊SAMPLE_RATE * (11 / 88200 : ℚ)⌋).toNat = 5
  rw [show (⌊SAMPLE_RATE * (11 / 88200 : ℚ)⌋ : ℤ) = 5 by norm_num [SAMPLE_RATE]]
  rfl

/-- Claim C2 (amended): for every waveform kind, positive frequency and
positive duration, the generated Signal has exactly
`int(duration * 44100)` samples — Python truncation (floor for positive
values), not rounding. -/
theorem C2_length (env : NumpyEnv) (osc : Oscillator) (f d : ℚ)
    (hf : 0 < f) (hd : 0 < d) :
    (osc.generate_wave env f d).length = (⌊(44100 : ℚ) * d⌋).toNat := by
  rw [generate_wave_length]
  rfl

/-- Witness for `C2_length` at frequency 440 and duration 1. -/
theorem C2_length_witness :
    (0 : ℚ) < 440 ∧ (0 : ℚ) < 1 ∧
    (Oscillator.generate_wave trivEnv {} 440 1).length = (⌊(44100 : ℚ) * 1⌋).toNat :=
  ⟨by norm_num, by norm_num, C2_length trivEnv {} 440 1 (by norm_num) (by norm_num)⟩

/-- Claim C3: for every oscillator configuration (including
`active = false`) and every call, `generate_wave` equals the fixed
three-stage pipeline waveform stage → modulator → filter stage in that
order, with only the waveform stage gated by `active`.  (When inactive,
the code's early return is observationally equal to running the
modulator and filter on the silent waveform stage output.) -/
theorem C3_pipeline (env : NumpyEnv) (osc : Oscillator) (f d : ℚ) :
    osc.generate_wave env f d = pipeline env osc f d := by
  unfold Oscillator.generate_wave pipeline waveformStage
  cases h : osc.active with
  | true => simp [h]
  | false =>
      simp only [h, Bool.not_false, if_true, if_false, Bool.false_eq_true, ite_false]
      rw [apply_lfo_zeros, apply_filter_zeros]

/-- Claim C5: an oscillator with `active = false` produces an all-zero
Signal (it is exactly `replicate (numSamples d) 0`), and its length
equals the length produced by any other oscillator (in particular an
active one) for the same duration, regardless of waveform, filter and
LFO settings. -/
theorem C5_inactive_silent (env : NumpyEnv) (osc osc2 : Oscillator) (f f2 d : ℚ)
    (h : osc.active = false) :
    osc.generate_wave env f d = List.replicate (numSamples d) 0 ∧
    (osc.generate_wave env f d).length = (osc2.generate_wave env f2 d).length := by
  constructor
  · unfold Oscillator.generate_wave
    simp [h]
  · rw [generate_wave_length, generate_wave_length]

/-- Witness for `C5_inactive_silent`: a disabled square-wave oscillator
against an active default oscillator at different frequencies. -/
theorem C5_inactive_silent_witness :
    ({ waveform := Waveform.SQUARE, active := false } : Oscillator).active = false ∧
    (Oscillator.generate_wave trivEnv { waveform := Waveform.SQUARE, active := false } 440 1 =
        List.replicate (numSamples 1) 0 ∧
      (Oscillator.generate_wave trivEnv { waveform := Waveform.SQUARE, active := false } 440 1).length =
        (Oscillator.generate_wave trivEnv {} 523.25 1).length) :=
  ⟨rfl, C5_inactive_silent trivEnv { waveform := Waveform.SQUARE, active := false } {} 440 523.25 1 rfl⟩

/-- Claim C9: for every LFO waveform other than `SINE`, the modulation
envelope is constant 1, and applying the modulator to a signal of
matching length is the identity. -/
theorem C9_lfo_identity (env : NumpyEnv) (lfo : LFO) (w : Signal) (d : ℚ)
    (hw : lfo.waveform ≠ Waveform.SINE) (hl : w.length = numSamples d) :
    lfo.generate_lfo_wave env d lfo.rate = List.replicate (numSamples d) 1 ∧
    lfo.apply_lfo env w d = w := by
  have henv := generate_lfo_wave_of_ne_sine env lfo d lfo.rate hw
  refine ⟨henv, ?_⟩
  unfold LFO.apply_lfo
  rw [henv]
  exact zipWith_mul_ones w _ (fun y hy => List.eq_of_mem_replicate hy)
    (by rw [List.length_replicate, hl])

/-- Witness for `C9_lfo_identity`: a square LFO at rate 2 applied to
the one-sample signal `[5]` for duration 1/44100 s. -/
theorem C9_lfo_identity_witness :
    ({ waveform := Waveform.SQUARE, rate := 2 } : LFO).waveform ≠ Waveform.SINE ∧
    ([(5 : ℚ)].length = numSamples (1 / 44100)) ∧
    (LFO.generate_lfo_wave trivEnv { waveform := Waveform.SQUARE, rate := 2 } (1 / 44100)
        ({ waveform := Waveform.SQUARE, rate := 2 } : LFO).rate =
        List.replicate (numSamples (1 / 44100)) 1 ∧
      LFO.apply_lfo trivEnv { waveform := Waveform.SQUARE, rate := 2 } [(5 : ℚ)] (1 / 44100) =
        [(5 : ℚ)]) := by
  have hl : [(5 : ℚ)].length = numSamples (1 / 44100) := by
    rw [List.length_cons, List.length_nil]
    show 1 = (⌊SAMPLE_RATE * (1 / 44100 : ℚ)⌋).toNat
    rw [show (⌊SAMPLE_RATE * (1 / 44100 : ℚ)⌋ : ℤ) = 1 by norm_num [SAMPLE_RATE]]
    rfl
  exact ⟨by simp, hl,
    C9_lfo_identity trivEnv { waveform := Waveform.SQUARE, rate := 2 } [(5 : ℚ)] (1 / 44100)
      (by simp) hl⟩

/-- Claim C6: for every triggered note (a key with a frequency), the
mixed output has one sample per pipeline sample, and at each index it
is the arithmetic mean of the three per-oscillator samples: their sum
divided by the oscillator count 3. -/
theorem C6_mixer_mean (env : NumpyEnv) (o1 o2 o3 : Oscillator) (key : Key) (f : ℚ)
    (hk : key_frequencies key = some f) :
    (generate_sound env [o1, o2, o3] key).length = numSamples 1 ∧
    ∀ i : ℕ, i < numSamples 1 →
      (generate_sound env [o1, o2, o3] key).getD i 0 =
        ((o1.generate_wave env f 1).getD i 0 + (o2.generate_wave env f 1).getD i 0 +
          (o3.generate_wave env f 1).getD i 0) / 3 := by
  have hlen1 := generate_wave_length env o1 f 1
  have hgen : generate_sound env [o1, o2, o3] key =
      (np_sum_axis0 [o1.generate_wave env f 1, o2.generate_wave env f 1,
        o3.generate_wave env f 1]).map (fun x => x / 3) := by
    unfold generate_sound
    rw [hk]
    norm_num
  constructor
  · rw [hgen, List.length_map]
    unfold np_sum_axis0
    rw [List.length_map, List.length_range, List.headD_cons, hlen1]
  · intro i hi
    rw [hgen]
    unfold np_sum_axis0
    rw [List.map_map, List.headD_cons, hlen1,
      getD_map_range (numSamples 1) _ i hi]
    simp only [Function.comp_apply, List.map_cons, List.map_nil, List.sum_cons,
      List.sum_nil, add_zero]
    ring

/-- Witness for `C6_mixer_mean`: three default oscillators and the key
`"z"` (frequency 440), instantiated at sample index 0. -/
theorem C6_mixer_mean_witness :
    key_frequencies "z" = some 440 ∧
    (0 : ℕ) < numSamples 1 ∧
    (generate_sound trivEnv [{}, {}, {}] "z").getD 0 0 =
      ((Oscillator.generate_wave trivEnv {} 440 1).getD 0 0 +
        (Oscillator.generate_wave trivEnv {} 440 1).getD 0 0 +
        (Oscillator.generate_wave trivEnv {} 440 1).getD 0 0) / 3 := by
  have hn : (0 : ℕ) < numSamples 1 := by
    show 0 < (⌊SAMPLE_RATE * (1 : ℚ)⌋).toNat
    rw [show (⌊SAMPLE_RATE * (1 : ℚ)⌋ : ℤ) = 44100 by norm_num [SAMPLE_RATE]]
    norm_num
  have hk : key_frequencies "z" = some 440 := by
    simp [key_frequencies, List.lookup]
    norm_num
  exact ⟨hk, hn, (C6_mixer_mean trivEnv {} {} {} "z" 440 hk).2 0 hn⟩

/-- Claim C7: a second trigger of a note that already has a live entry
in the table is a no-op: the state is unchanged and the note keeps its
single voice slot. -/
theorem C7_repeat_trigger (s : SynthPolyphony) (key : Key) (ch : Fin NUM_VOICES)
    (h : s.active_notes key = some ch) :
    on_key_press s key = s ∧ (on_key_press s key).active_notes key = some ch := by
  have hno : (s.active_notes key).isNone = false := by rw [h]; rfl
  have heq : on_key_press s key = s := by
    unfold on_key_press
    rw [hno]
    rfl
  exact ⟨heq, by rw [heq, h]⟩

/-- Witness for `C7_repeat_trigger`: re-triggering `"z"` while it plays
on channel 0 of state `s1`. -/
theorem C7_repeat_trigger_witness :
    s1.active_notes "z" = some ⟨0, by norm_num [NUM_VOICES]⟩ ∧
    (on_key_press s1 "z" = s1 ∧
      (on_key_press s1 "z").active_notes "z" = some ⟨0, by norm_num [NUM_VOICES]⟩) :=
  ⟨rfl, C7_repeat_trigger s1 "z" ⟨0, by norm_num [NUM_VOICES]⟩ rfl⟩

/-- Claim C8: releasing a note with a live entry stops its channel and
removes its entry; releasing an unknown note is a no-op leaving the
whole state (table and all channels) unchanged. -/
theorem C8_release (s : SynthPolyphony) (key : Key) :
    (∀ ch : Fin NUM_VOICES, s.active_notes key = some ch →
      (stop_sound s key).channels ch = none ∧
      (stop_sound s key).active_notes key = none) ∧
    (s.active_notes key = none → stop_sound s key = s) := by
  constructor
  · intro ch h
    unfold stop_sound
    rw [h]
    exact ⟨by simp, by simp⟩
  · intro h
    unfold stop_sound
    rw [h]

/-- Witness for `C8_release`: releasing live `"z"` and unknown `"q"`
in state `s1`. -/
theorem C8_release_witness :
    ((stop_sound s1 "z").channels ⟨0, by norm_num [NUM_VOICES]⟩ = none ∧
      (stop_sound s1 "z").active_notes "z" = none) ∧
    stop_sound s1 "q" = s1 :=
  ⟨(C8_release s1 "z").1 ⟨0, by norm_num [NUM_VOICES]⟩ rfl, (C8_release s1 "q").2 rfl⟩

/-- Claim C10: `stop_sound key` removes exactly the entry for `key`:
every other note's mapping is unchanged and no channel other than the
one mapped to `key` is stopped. -/
theorem C10_release_frame (s : SynthPolyphony) (key : Key) (ch : Fin NUM_VOICES)
    (h : s.active_notes key = some ch) :
    (stop_sound s key).active_notes key = none ∧
    (∀ k : Key, k ≠ key → (stop_sound s key).active_notes k = s.active_notes k) ∧
    (∀ i : Fin NUM_VOICES, i ≠ ch → (stop_sound s key).channels i = s.channels i) := by
  unfold stop_sound
  rw [h]
  refine ⟨by simp, ?_, ?_⟩
  · intro k hk
    simp [hk]
  · intro i hi
    simp [hi]

/-- Witness for `C10_release_frame`: in state `s2` (`"z"` on channel 0,
`"x"` on channel 1), releasing `"z"` leaves `"x"` and channel 1 alone. -/
theorem C10_release_frame_witness :
    (stop_sound s2 "z").active_notes "z" = none ∧
    (stop_sound s2 "z").active_notes "x" = s2.active_notes "x" ∧
    (stop_sound s2 "z").channels ⟨1, by norm_num [NUM_VOICES]⟩ =
      s2.channels ⟨1, by norm_num [NUM_VOICES]⟩ :=
  ⟨(C10_release_frame s2 "z" ⟨0, by norm_num [NUM_VOICES]⟩ rfl).1,
   (C10_release_frame s2 "z" ⟨0, by norm_num [NUM_VOICES]⟩ rfl).2.1 "x" (by decide),
   (C10_release_frame s2 "z" ⟨0, by norm_num [NUM_VOICES]⟩ rfl).2.2
     ⟨1, by norm_num [NUM_VOICES]⟩ (by decide)⟩

/-- Claim C1, counterexample: in state `s8` all 8 channels are busy
with distinct notes and `"o"` is a new distinct note; triggering `"o"`
steals channel 0 (forcibly replacing the note `"q"` that was playing
there), yet the ActiveNoteTable still contains an entry for the stolen
note `"q"` — the claim's removal of that entry does not happen. -/
theorem C1_steal_counterexample :
    ((List.finRange NUM_VOICES).all fun i => (s8.channels i).isSome) = true ∧
    s8.active_notes "o" = none ∧
    s8.channels ⟨0, by norm_num [NUM_VOICES]⟩ = some "q" ∧
    s8.active_notes "q" = some ⟨0, by norm_num [NUM_VOICES]⟩ ∧
    (play_sound s8 "o").channels ⟨0, by norm_num [NUM_VOICES]⟩ = some "o" ∧
    (play_sound s8 "o").active_notes "q" = some ⟨0, by norm_num [NUM_VOICES]⟩ := by
  decide

/-- Claim C1 (amended): when all 8 voice slots are busy, a new trigger
steals slot 0 — the note previously playing there is forcibly replaced
by the new note — but the ActiveNoteTable entry of the stolen note is
NOT removed: every entry other than the new note's is left unchanged. -/
theorem C1_steal (s : SynthPolyphony) (key : Key)
    (hbusy : ∀ i : Fin NUM_VOICES, (s.channels i).isSome) :
    findFreeChannel s = ⟨0, by norm_num [NUM_VOICES]⟩ ∧
    (play_sound s key).channels ⟨0, by norm_num [NUM_VOICES]⟩ = some key ∧
    (play_sound s key).active_notes key = some ⟨0, by norm_num [NUM_VOICES]⟩ ∧
    ∀ k : Key, k ≠ key → (play_sound s key).active_notes k = s.active_notes k := by
  have hfind : (List.finRange NUM_VOICES).find? (fun i => (s.channels i).isNone) = none := by
    rw [List.find?_eq_none]
    intro i _
    have hb := hbusy i
    cases hc : s.channels i with
    | none => rw [hc] at hb; exact absurd hb (by simp)
    | some v => simp [hc]
  have hch : findFreeChannel s = ⟨0, by norm_num [NUM_VOICES]⟩ := by
    unfold findFreeChannel
    rw [hfind]
  refine ⟨hch, ?_, ?_, ?_⟩
  · unfold play_sound
    simp [hch]
  · unfold play_sound
    simp [hch]
  · intro k hk
    unfold play_sound
    simp [hk]

/-- Witness for `C1_steal`: the fully busy state `s8` and the new note
`"o"`; the stolen note `"q"` keeps its table entry. -/
theorem C1_steal_witness :
    findFreeChannel s8 = ⟨0, by norm_num [NUM_VOICES]⟩ ∧
    (play_sound s8 "o").channels ⟨0, by norm_num [NUM_VOICES]⟩ = some "o" ∧
    (play_sound s8 "o").active_notes "o" = some ⟨0, by norm_num [NUM_VOICES]⟩ ∧
    (play_sound s8 "o").active_notes "q" = s8.active_notes "q" :=
  ⟨(C1_steal s8 "o" (by decide)).1, (C1_steal s8 "o" (by decide)).2.1,
   (C1_steal s8 "o" (by decide)).2.2.1,
   (C1_steal s8 "o" (by decide)).2.2.2 "q" (by decide)⟩

/-- Claim C4: the code does not reject or clamp a cutoff at/above the
Nyquist frequency: for any cutoff ≥ 22050 the normalized cutoff is ≥ 1
and is handed verbatim to `scipy.signal.butter` for coefficient design,
whose output then drives `lfilter` — there is no guard anywhere on the
path.  (This confirms the divergence between the claim's mandated
reject-or-clamp policy and the code.) -/
theorem C4_nyquist_unguarded (env : NumpyEnv) (w : Signal) (cutoff : ℚ) (order : ℕ)
    (ft : FilterType) (hcut : 22050 ≤ cutoff) :
    1 ≤ Filter.normalCutoff cutoff SAMPLE_RATE ∧
    (Filter.mk ft cutoff order).apply_filter env w =
      lfilter (env.butter order (Filter.normalCutoff cutoff SAMPLE_RATE) ft).1
        (env.butter order (Filter.normalCutoff cutoff SAMPLE_RATE) ft).2 w := by
  constructor
  · unfold Filter.normalCutoff
    rw [show (1 / 2 * SAMPLE_RATE : ℚ) = 22050 by norm_num [SAMPLE_RATE]]
    exact (one_le_div (by norm_num)).mpr hcut
  · rfl

/-- Witness for `C4_nyquist_unguarded`: the lowpass order-2 filter with
cutoff exactly at Nyquist (22050 Hz). -/
theorem C4_nyquist_unguarded_witness :
    (22050 : ℚ) ≤ 22050 ∧
    (1 ≤ Filter.normalCutoff 22050 SAMPLE_RATE ∧
      (Filter.mk FilterType.lowpass 22050 2).apply_filter trivEnv [] =
        lfilter (trivEnv.butter 2 (Filter.normalCutoff 22050 SAMPLE_RATE) FilterType.lowpass).1
          (trivEnv.butter 2 (Filter.normalCutoff 22050 SAMPLE_RATE) FilterType.lowpass).2 []) :=
  ⟨by norm_num, C4_nyquist_unguarded trivEnv [] 22050 2 FilterType.lowpass (by norm_num)⟩

end Synthor
